import Mathlib

/-!
Verification development for the core of a Stockfish-derived chess engine
(sources: search.cpp, tt.h, history.cpp, bitboard.cpp, uci.cpp, ucioption.cpp).
Pure fragments of the C++ sources are embedded shallowly as Lean functions on
Int/Nat; recursive search calls and opaque Position queries appear as oracle
fields of explicit context structures, while every piece of control flow and
arithmetic of the embedded functions follows the source line by line.
Headers that are not part of the source set (value.h, depth.h, move.h,
history.h) are modelled from the specification document; each such definition
carries a doc comment saying so.
-/

/-- Modelled from the spec: depth.h is absent from the sources. Depth is an
integer in fractional plies, one full ply = ONE_PLY, typically 2 units. -/
def OnePly : Int := 2

/-- Modelled from the spec: value.h is absent from the sources. Values are
centipawn scores in [-VALUE_INFINITE, VALUE_INFINITE] with mate scores
encoding distance from root as VALUE_MATE - ply. -/
def VALUE_MATE : Int := 30000

/-- Modelled from the spec: value bound of the score range. -/
def VALUE_INFINITE : Int := 30001

/-- Modelled from the spec: the draw pseudo-value is zero. -/
def VALUE_DRAW : Int := 0

/-- Modelled from the spec: maximum search ply (PLY_MAX). -/
def PLY_MAX : Int := 100

/-- Modelled from the spec: a forced mate in ply is scored VALUE_MATE - ply. -/
def value_mate_in (ply : Int) : Int := VALUE_MATE - ply

/-- Modelled from the spec: being mated in ply is scored -VALUE_MATE + ply. -/
def value_mated_in (ply : Int) : Int := -VALUE_MATE + ply

/-- Modelled from the spec: mate values are stored in the transposition table
offset by the current ply so the entry is ply-agnostic; retrieval reverses
the offset, other values pass through unchanged. -/
def value_from_tt (v ply : Int) : Int :=
  if value_mate_in PLY_MAX ≤ v then v - ply
  else if v ≤ value_mated_in PLY_MAX then v + ply
  else v

/-- Modelled from the spec: the value-type tag set {EXACT, LOWER, UPPER, plus
two EVAL-CACHE variants}; encoded as bit flags with UPPER = 1, LOWER = 2,
EXACT = LOWER|UPPER, EVAL = 4 and its two bound variants. -/
def VALUE_TYPE_NONE : Nat := 0

/-- Modelled from the spec: upper-bound flag of the value-type tag. -/
def VALUE_TYPE_UPPER : Nat := 1

/-- Modelled from the spec: lower-bound flag of the value-type tag. -/
def VALUE_TYPE_LOWER : Nat := 2

/-- Modelled from the spec: exact values carry both bound flags. -/
def VALUE_TYPE_EXACT : Nat := 3

/-- Modelled from the spec: flag marking a stored static evaluation. -/
def VALUE_TYPE_EVAL : Nat := 4

/-- Modelled from the spec: eval-cache variant that is an upper bound. -/
def VALUE_TYPE_EV_UP : Nat := 5

/-- Modelled from the spec: eval-cache variant that is a lower bound. -/
def VALUE_TYPE_EV_LO : Nat := 6

/-- Modelled from the spec: a tag is a lower bound when its LOWER flag is set. -/
def is_lower_bound (t : Nat) : Bool := t &&& VALUE_TYPE_LOWER ≠ 0

/-- Modelled from the spec: a tag is an upper bound when its UPPER flag is set. -/
def is_upper_bound (t : Nat) : Bool := t &&& VALUE_TYPE_UPPER ≠ 0

/-- Modelled from the spec: move.h is absent; moves are an encoded integer
(the encoding width is what tt.h fixes) with MOVE_NONE = 0. -/
def MOVE_NONE : Nat := 0

/-- TTEntry, from tt.h: 64-bit key, 32-bit data word, 16-bit value and
16-bit depth. The data word layout (comment in tt.h): bit 0-16 move,
bit 17 stored-value-equals-static flag, bits 18-19 unused, bits 20-22
value type, bits 23-31 generation. -/
structure TTEntry where
  key_ : Nat
  data : Nat
  value_ : Int
  depth_ : Int

/-- Accessor from tt.h: Move(data & 0x1FFFF). -/
def TTEntry.move (e : TTEntry) : Nat := e.data &&& 0x1FFFF

/-- Accessor from tt.h: the stored 16-bit value. -/
def TTEntry.value (e : TTEntry) : Int := e.value_

/-- Accessor from tt.h: the stored 16-bit depth. -/
def TTEntry.depth (e : TTEntry) : Int := e.depth_

/-- Accessor from tt.h: ValueType((data >> 20) & 7). -/
def TTEntry.type (e : TTEntry) : Nat := (e.data >>> 20) &&& 7

/-- Accessor from tt.h: int(data >> 23). -/
def TTEntry.generation (e : TTEntry) : Nat := e.data >>> 23

/-- Accessor from tt.h: bool((data >> 17) & 1). -/
def TTEntry.staticValueFlag (e : TTEntry) : Bool := ((e.data >>> 17) &&& 1) = 1

/-- From search.cpp, update_killers(): if the move already heads the killer
array return; otherwise shift every slot up by one and install the move in
slot 0. The killer array is modelled as a list of length KILLER_MAX. -/
def update_killers (m : Nat) (killers : List Nat) : List Nat :=
  if killers.head? = some m then killers
  else m :: killers.dropLast

/-- From history.cpp: the History class holds three [16][64] integer tables. -/
structure History where
  history : Fin 16 → Fin 64 → Int
  successCount : Fin 16 → Fin 64 → Int
  failureCount : Fin 16 → Fin 64 → Int

/-- Modelled from the spec: history.h is absent; HistoryMax is the overflow
bound at which the table saturates. The exact constant is not fixed by the
spec; the claims below do not depend on its value. -/
def HistoryMax : Int := 50000 * OnePly

/-- From history.cpp, History::success(): add d*d to history[p][to], bump
successCount[p][to], and if history[p][to] then reaches HistoryMax divide
every history entry by 4 (C integer division; all entries stay nonnegative). -/
def History.success (h : History) (p : Fin 16) (sq : Fin 64) (d : Int) : History :=
  let h1 : History :=
    { h with
      history := fun i j => if i = p ∧ j = sq then h.history i j + d * d else h.history i j
      successCount := fun i j =>
        if i = p ∧ j = sq then h.successCount i j + 1 else h.successCount i j }
  if HistoryMax ≤ h1.history p sq then
    { h1 with history := fun i j => Int.tdiv (h1.history i j) 4 }
  else h1

/-- From history.cpp, History::failure(): bump failureCount[p][to] only. -/
def History.failure (h : History) (p : Fin 16) (sq : Fin 64) : History :=
  { h with
    failureCount := fun i j =>
      if i = p ∧ j = sq then h.failureCount i j + 1 else h.failureCount i j }

/-- From history.cpp, History::move_ordering_score(). -/
def History.move_ordering_score (h : History) (p : Fin 16) (sq : Fin 64) : Int :=
  h.history p sq

/-- The global state read by poll() in search.cpp when it decides whether to
set AbortSearch (lines 2720-2734). -/
structure PollState where
  ponderSearch : Bool
  rootMoveNumber : Int
  failLow : Bool
  t : Int
  maxSearchTime : Int
  extraSearchTime : Int
  absoluteMaxSearchTime : Int
  iteration : Int
  useTimeManagement : Bool
  exactMaxTime : Int
  maxNodes : Int
  nodesSearched : Int

/-- From search.cpp, poll(): the condition under which poll() sets
AbortSearch. With PonderSearch the function returns before the check. -/
def poll_abort (s : PollState) : Bool :=
  if s.ponderSearch then false
  else
    let stillAtFirstMove : Bool :=
      s.rootMoveNumber = 1 ∧ ¬ s.failLow ∧ s.maxSearchTime + s.extraSearchTime < s.t
    let noMoreTime : Bool := s.absoluteMaxSearchTime < s.t ∨ stillAtFirstMove
    (3 ≤ s.iteration ∧ s.useTimeManagement ∧ noMoreTime) ∨
    (s.exactMaxTime ≠ 0 ∧ s.exactMaxTime ≤ s.t) ∨
    (3 ≤ s.iteration ∧ s.maxNodes ≠ 0 ∧ s.maxNodes ≤ s.nodesSearched)

/-- The node-limit disjunct of poll_abort in isolation, following the source
text `Iteration >= 3 && MaxNodes && nodes_searched() >= MaxNodes`. -/
def poll_abort_nodes_cond (s : PollState) : Bool :=
  3 ≤ s.iteration ∧ s.maxNodes ≠ 0 ∧ s.maxNodes ≤ s.nodesSearched

/-- The two time-based disjuncts of poll_abort without the node condition. -/
def poll_abort_time_only (s : PollState) : Bool :=
  if s.ponderSearch then false
  else
    let stillAtFirstMove : Bool :=
      s.rootMoveNumber = 1 ∧ ¬ s.failLow ∧ s.maxSearchTime + s.extraSearchTime < s.t
    let noMoreTime : Bool := s.absoluteMaxSearchTime < s.t ∨ stillAtFirstMove
    (3 ≤ s.iteration ∧ s.useTimeManagement ∧ noMoreTime) ∨
    (s.exactMaxTime ≠ 0 ∧ s.exactMaxTime ≤ s.t)

/-- From search.cpp, think() line 362: UseTimeManagement is enabled exactly
when no exact time, no depth limit, no node limit and not infinite. -/
def think_useTimeManagement (exactMaxTime maxDepth maxNodes : Int)
    (infinite : Bool) : Bool :=
  exactMaxTime = 0 ∧ maxDepth = 0 ∧ maxNodes = 0 ∧ ¬ infinite

/-- Concrete history table with a plain value in every slot, used as input of
the C5 counterexample. -/
def histC : History := ⟨fun _ _ => 5, fun _ _ => 0, fun _ _ => 0⟩

/-- Concrete history table one point below the saturation bound, used to
exhibit the overflow behaviour. -/
def histD : History := ⟨fun _ _ => HistoryMax - 1, fun _ _ => 0, fun _ _ => 0⟩

/-- Concrete piece index. -/
def pieceW : Fin 16 := ⟨1, by decide⟩

/-- Concrete destination square index. -/
def sqE4 : Fin 64 := ⟨28, by decide⟩

/-- C5 counterexample: History::failure leaves the history counter unchanged
(it only bumps the failure count), so it does not decrement it; and when
the counter reaches the overflow bound the table is divided by 4, not
halved: from 99999 a success of depth 2 gives 25000, while halving the
incremented counter would give 50001. -/
theorem history_claim_counterexample :
    (History.failure histC pieceW sqE4).history pieceW sqE4 = 5 ∧
    histC.history pieceW sqE4 - 1 = 4 ∧
    (History.success histD pieceW sqE4 2).history pieceW sqE4 = 25000 ∧
    Int.tdiv (histD.history pieceW sqE4 + 2 * 2) 2 = 50001 := by
  refine ⟨rfl, by decide, ?_, by decide⟩
  show (if HistoryMax ≤ HistoryMax - 1 + 2 * 2 then
          Int.tdiv (HistoryMax - 1 + 2 * 2) 4 else HistoryMax - 1 + 2 * 2) = 25000
  decide

/-- C5 amended: History::success adds the square of the depth to the history
counter of (p, sq) and bumps its success count; if the counter then reaches
HistoryMax the whole table saturates by dividing every entry by 4 (not by
halving). History::failure bumps only the failure count of (p, sq) and
leaves the history counter itself unchanged (it does not decrement it). -/
theorem history_update_spec (h : History) (p : Fin 16) (sq : Fin 64) (d : Int) :
    (h.success p sq d).successCount p sq = h.successCount p sq + 1 ∧
    (h.success p sq d).history p sq =
      (if HistoryMax ≤ h.history p sq + d * d
       then Int.tdiv (h.history p sq + d * d) 4
       else h.history p sq + d * d) ∧
    (h.failure p sq).history = h.history ∧
    (h.failure p sq).successCount = h.successCount ∧
    (h.failure p sq).failureCount p sq = h.failureCount p sq + 1 := by
  refine ⟨?_, ?_, rfl, rfl, by simp [History.failure]⟩ <;>
    by_cases hc : HistoryMax ≤ h.history p sq + d * d <;>
      simp [History.success, hc]

/-- Concrete transposition-table entry whose data word has bit 16 set,
exhibiting that the stored move field is 17 bits wide. -/
def tteA : TTEntry := ⟨0, 65536, 0, 0⟩

/-- Concrete transposition-table entry whose generation field does not fit
in 8 bits. -/
def tteB : TTEntry := ⟨0, 0xFF800000, 0, 0⟩

/-- C6 counterexample: move() masks with 0x1FFFF, so it keeps 17 bits, not
the low 16 bits; and generation() returns data >> 23, a 9-bit field, which
can reach 511 and so does not fit in 8 bits. -/
theorem tt_entry_layout_counterexample :
    TTEntry.move tteA ≠ tteA.data % 2 ^ 16 ∧
    ¬ TTEntry.generation tteB < 2 ^ 8 := by
  constructor <;> decide

/-- C6 amended: in the 32-bit data word of a TTEntry the encoded move
occupies the low 17 bits (move() extracts data & 0x1FFFF), the value-type
tag the 3 bits 20-22, and the generation the top 9 bits 23-31, so
generation() is bounded by 2^9, not 2^8. -/
theorem tt_entry_layout (e : TTEntry) (h : e.data < 2 ^ 32) :
    e.move = e.data % 2 ^ 17 ∧
    e.type = e.data / 2 ^ 20 % 2 ^ 3 ∧
    e.generation = e.data / 2 ^ 23 ∧
    e.generation < 2 ^ 9 := by
  refine ⟨?_, ?_, Nat.shiftRight_eq_div_pow e.data 23, ?_⟩
  · have h17 : (0x1FFFF : Nat) = 2 ^ 17 - 1 := by norm_num
    show e.data &&& 0x1FFFF = _
    rw [h17, Nat.and_pow_two_sub_one_eq_mod]
  · show (e.data >>> 20) &&& 7 = _
    have h3 : (7 : Nat) = 2 ^ 3 - 1 := by norm_num
    rw [h3, Nat.and_pow_two_sub_one_eq_mod, Nat.shiftRight_eq_div_pow]
  · show e.data >>> 23 < 2 ^ 9
    rw [Nat.shiftRight_eq_div_pow]
    exact Nat.div_lt_of_lt_mul (by norm_num at h ⊢; omega)

/-- C6 witness: the amended layout theorem evaluated on a concrete entry. -/
theorem tt_entry_layout_witness :
    TTEntry.move ⟨0, 3456789012, 0, 0⟩ = 3456789012 % 2 ^ 17 ∧
    TTEntry.type ⟨0, 3456789012, 0, 0⟩ = 3456789012 / 2 ^ 20 % 2 ^ 3 ∧
    TTEntry.generation ⟨0, 3456789012, 0, 0⟩ = 3456789012 / 2 ^ 23 ∧
    TTEntry.generation ⟨0, 3456789012, 0, 0⟩ < 2 ^ 9 :=
  tt_entry_layout ⟨0, 3456789012, 0, 0⟩ (by norm_num)

/-- C10: update_killers leaves the killer list unchanged when the move is
already in front (hence calling it twice equals calling it once), and
otherwise installs the move in slot 0 and shifts every other slot up by
one, so afterwards the first two slots differ. -/
theorem update_killers_spec (m : Nat) (ks : List Nat) (h2 : 2 ≤ ks.length) :
    (ks.head? = some m → update_killers m ks = ks) ∧
    update_killers m (update_killers m ks) = update_killers m ks ∧
    (ks.head? ≠ some m →
      (update_killers m ks).head? = some m ∧
      (update_killers m ks).length = ks.length ∧
      (∀ i : Nat, 1 ≤ i → i < ks.length →
        (update_killers m ks)[i]? = ks[i - 1]?) ∧
      (update_killers m ks)[0]? ≠ (update_killers m ks)[1]?) := by
  obtain ⟨a, b, t, rfl⟩ : ∃ a b t, ks = a :: b :: t := by
    match ks, h2 with
    | a :: b :: t, _ => exact ⟨a, b, t, rfl⟩
  constructor
  · intro h
    simp [update_killers, h]
  constructor
  · by_cases h : (a :: b :: t).head? = some m
    · simp [update_killers, h]
    · simp only [update_killers, if_neg h]
      simp
  · intro h
    have ham : a ≠ m := by
      intro hc
      exact h (by simp [hc])
    refine ⟨?_, ?_, ?_, ?_⟩
    · simp only [update_killers, List.head?_cons, Option.some.injEq]
      rw [if_neg ham]
      rfl
    · simp only [update_killers, List.head?_cons, Option.some.injEq]
      rw [if_neg ham]
      simp [List.length_dropLast]
    · intro i h1 hi
      simp only [update_killers, List.head?_cons, Option.some.injEq]
      rw [if_neg ham]
      match i, h1 with
      | Nat.succ j, _ =>
        simp only [List.getElem?_cons_succ, Nat.succ_sub_one]
        rw [List.dropLast_eq_take, List.getElem?_take_of_lt]
        simp only [List.length_cons] at hi
        simp only [List.length_cons]
        omega
    · simp only [update_killers, List.head?_cons, Option.some.injEq]
      rw [if_neg ham]
      simp [List.dropLast_cons₂]
      exact Ne.symm ham

/-- C10 witness: the killer-update theorem evaluated on a concrete list,
with every hypothesis discharged by computation. -/
theorem update_killers_spec_witness :
    (update_killers 5 [3, 7]).head? = some 5 ∧
    (update_killers 5 [3, 7]).length = ([3, 7] : List Nat).length ∧
    (∀ i : Nat, 1 ≤ i → i < ([3, 7] : List Nat).length →
      (update_killers 5 [3, 7])[i]? = ([3, 7] : List Nat)[i - 1]?) ∧
    (update_killers 5 [3, 7])[0]? ≠ (update_killers 5 [3, 7])[1]? :=
  (update_killers_spec 5 [3, 7] (by decide)).2.2 (by decide)

/-- Concrete poll state: node limit 0, almost a million nodes searched, no
time limits, iteration 5. -/
def pollS0 : PollState :=
  ⟨false, 1, false, 10, 100, 0, 10000, 5, false, 0, 0, 999999⟩

/-- C7 counterexample: with MaxNodes = 0 the node-count stop condition never
fires; here 999999 nodes have been searched at iteration 5 yet poll() does
not set AbortSearch, because the condition is guarded by MaxNodes being
nonzero (0 means no node limit, the opposite of stopping at once). -/
theorem poll_nodes_zero_counterexample :
    pollS0.maxNodes = 0 ∧ pollS0.nodesSearched = 999999 ∧
    poll_abort pollS0 = false := by
  refine ⟨rfl, rfl, ?_⟩
  decide

/-- C7 amended: a node limit of 0 is treated as no node limit at all: with
MaxNodes = 0 poll() aborts exactly on its time-based conditions, and in
general its abort condition decomposes as the time conditions joined with
the guarded node condition Iteration >= 3 and MaxNodes nonzero and
nodes_searched >= MaxNodes; think() enables time management only when the
node limit (and every other limit) is absent. -/
theorem poll_abort_nodes_spec (s : PollState) :
    (s.maxNodes = 0 → poll_abort s = poll_abort_time_only s) ∧
    poll_abort s = (poll_abort_time_only s || (!s.ponderSearch && poll_abort_nodes_cond s)) ∧
    (∀ e d inf, think_useTimeManagement e d 0 inf =
      (decide (e = 0) && decide (d = 0) && !inf)) := by
  refine ⟨?_, ?_, ?_⟩
  · intro h
    simp [poll_abort, poll_abort_time_only, h]
  · by_cases hp : s.ponderSearch <;>
      simp [poll_abort, poll_abort_time_only, poll_abort_nodes_cond, hp, Bool.or_assoc]
  · intro e d inf
    simp [think_useTimeManagement]
    cases inf <;> simp

/-- C7 witness: the amended poll decomposition evaluated on the concrete
state pollS0, the zero-node-limit hypothesis discharged by computation. -/
theorem poll_abort_nodes_spec_witness :
    poll_abort pollS0 = poll_abort_time_only pollS0 :=
  (poll_abort_nodes_spec pollS0).1 rfl

/-- From ucioption.cpp: one entry of the option registry (the combo list and
option kind play no role in the claims and are omitted from the record). -/
structure UciOption where
  defaultValue : String
  currentValue : String
  minValue : Int
  maxValue : Int

/-- From ucioption.cpp, set_option_value(): if the name is registered the
current value is replaced (no legality check), otherwise the message
No such option is printed and the registry is left untouched. The registry
is modelled as an association list keyed by the option name. -/
def set_option_value (m : List (String × UciOption)) (optionName newValue : String) :
    List (String × UciOption) × List String :=
  if (m.lookup optionName).isSome then
    (m.map (fun kv =>
       if kv.1 = optionName then (kv.1, { kv.2 with currentValue := newValue }) else kv),
     [])
  else (m, ["No such option: " ++ optionName])

/-- Helper of the tokenizer: walk the character list, accumulating the
current token in reverse; a space closes the token. -/
def splitTokens : List Char → List Char → List String
  | [], cur => if cur = [] then [] else [String.mk cur.reverse]
  | c :: rest, cur =>
      if c = ' ' then
        if cur = [] then splitTokens rest []
        else String.mk cur.reverse :: splitTokens rest []
      else splitTokens rest (c :: cur)

/-- Tokenization performed by the UCIParser string stream of uci.cpp:
whitespace-separated tokens. -/
def uciTokens (cmd : String) : List String :=
  splitTokens cmd.data []

/-- Empty token returned when the command line has none. -/
def noToken : String := ""

/-- From uci.cpp, set_option(): consume the name token, read the option name
up to the value token (joined with single spaces), read the value (likewise);
an empty value becomes true for UCI buttons; unknown names print
No such option and change nothing. -/
def set_option_cmd (m : List (String × UciOption)) (args : List String) :
    List (String × UciOption) × List String :=
  let afterName := args.drop 1
  let nameParts := afterName.takeWhile (fun t => t ≠ "value")
  let valueParts := (afterName.dropWhile (fun t => t ≠ "value")).drop 1
  let name := " ".intercalate nameParts
  let value := " ".intercalate valueParts
  set_option_value m name (if value = "" then "true" else value)

/-- External collaborators of execute_uci_command: the Position operations and
search entry points that the recognized commands invoke. They are opaque to
the dispatcher; the claims below concern only the dispatch itself. -/
structure UciHandlers (P : Type) where
  newGame : P → P
  setPosition : P → List String → P
  goSearch : P → List String → Bool
  perftLines : P → List String → List String
  printLines : P → List String
  flipPos : P → P
  evalLines : P → List String
  keyLines : P → List String
  uciLines : List String

/-- The engine state owned by the UCI loop: the root position and the option
registry. -/
structure UciState (P : Type) where
  pos : P
  options : List (String × UciOption)

/-- From uci.cpp, execute_uci_command(): dispatch on the first token of the
command line; the returned Bool is false exactly for quit, and the list
collects the lines printed to the output stream. -/
def execute_uci_command {P : Type} (h : UciHandlers P) (st : UciState P) (cmd : String) :
    UciState P × List String × Bool :=
  let tokens := uciTokens cmd
  let token := tokens.headD noToken
  let args := tokens.drop 1
  if token = "quit" then (st, [], false)
  else if token = "go" then (st, [], h.goSearch st.pos args)
  else if token = "ucinewgame" then ({ st with pos := h.newGame st.pos }, [], true)
  else if token = "isready" then (st, ["readyok"], true)
  else if token = "position" then ({ st with pos := h.setPosition st.pos args }, [], true)
  else if token = "setoption" then
    let r := set_option_cmd st.options args
    ({ st with options := r.1 }, r.2, true)
  else if token = "perft" then (st, h.perftLines st.pos args, true)
  else if token = "d" then (st, h.printLines st.pos, true)
  else if token = "flip" then ({ st with pos := h.flipPos st.pos }, [], true)
  else if token = "eval" then (st, h.evalLines st.pos, true)
  else if token = "key" then (st, h.keyLines st.pos, true)
  else if token = "uci" then (st, h.uciLines, true)
  else (st, ["Unknown command: " ++ cmd], true)

/-- The twelve command words recognized by the dispatch chain of uci.cpp. -/
def uciRecognizedTokens : List String :=
  ["quit", "go", "ucinewgame", "isready", "position", "setoption",
   "perft", "d", "flip", "eval", "key", "uci"]

/-- C9: a command whose first token is not recognized makes
execute_uci_command print Unknown command followed by the whole command line
and leave the engine state (position and options) unchanged; and setting an
option whose name is not registered prints No such option and leaves the
option registry unchanged. -/
theorem uci_unknown_command_spec {P : Type} (h : UciHandlers P) (st : UciState P)
    (cmd : String) (hu : (uciTokens cmd).headD noToken ∉ uciRecognizedTokens)
    (m : List (String × UciOption)) (name v : String)
    (hn : (m.lookup name).isNone) :
    execute_uci_command h st cmd = (st, ["Unknown command: " ++ cmd], true) ∧
    set_option_value m name v = (m, ["No such option: " ++ name]) := by
  constructor
  · simp only [uciRecognizedTokens, List.mem_cons, List.not_mem_nil, or_false,
      not_or] at hu
    obtain ⟨h1, h2, h3, h4, h5, h6, h7, h8, h9, h10, h11, h12⟩ := hu
    simp only [execute_uci_command, if_neg h1, if_neg h2, if_neg h3, if_neg h4,
      if_neg h5, if_neg h6, if_neg h7, if_neg h8, if_neg h9, if_neg h10,
      if_neg h11, if_neg h12]
  · have hn2 : m.lookup name = none := Option.isNone_iff_eq_none.mp hn
    simp [set_option_value, hn2]

/-- Concrete option registry holding a single Hash entry. -/
def optsHash : List (String × UciOption) := [("Hash", ⟨"32", "32", 4, 4096⟩)]

/-- Concrete unrecognized command line. -/
def cmdBogus : String := "hello world"

/-- Handlers over a unit position, enough to evaluate the dispatcher. -/
def unitHandlers : UciHandlers Unit :=
  ⟨fun p => p, fun p _ => p, fun _ _ => true, fun _ _ => [], fun _ => [],
   fun p => p, fun _ => [], fun _ => [], []⟩

/-- C9 witness: the dispatcher theorem evaluated on a concrete unknown
command and a concrete unknown option name. -/
theorem uci_unknown_command_spec_witness :
    execute_uci_command unitHandlers ⟨(), optsHash⟩ cmdBogus =
      (⟨(), optsHash⟩, ["Unknown command: " ++ cmdBogus], true) ∧
    set_option_value optsHash "Foo" "1" =
      (optsHash, ["No such option: " ++ "Foo"]) :=
  uci_unknown_command_spec unitHandlers ⟨(), optsHash⟩ cmdBogus (by decide)
    optsHash "Foo" "1" (by decide)

/-- Modelled from the spec: value.h is absent; the pawn value used by the
null-move value reduction. The exact centipawn constant is not fixed by the
spec and no claim depends on it. -/
def PawnValueMidgame : Int := 256

/-- Modelled from the spec: the endgame pawn value used by the quiescence
en-passant futility bonus. No claim depends on its numeric value. -/
def PawnValueEndgame : Int := 256

/-- Modelled from the spec: scores below this bound are treated as known
wins in the singular extension guard. No claim depends on its value. -/
def VALUE_KNOWN_WIN : Int := 15000

/-- From search.cpp lines 2404-2410, value_is_mate(): a value is a mate
score when it is at most value_mated_in(PLY_MAX) or at least
value_mate_in(PLY_MAX). -/
def value_is_mate (v : Int) : Bool :=
  v ≤ value_mated_in PLY_MAX ∨ value_mate_in PLY_MAX ≤ v

/-- Constant from search.cpp: Value(0x200), the margin below beta beyond
which no null-move search is tried. -/
def NullMoveMargin : Int := 512

/-- Constant from search.cpp: Value(0x100), internal iterative deepening
margin. -/
def IIDMargin : Int := 256

/-- Constant from search.cpp: Value(0x20), singular extension margin. -/
def SingleReplyMargin : Int := 32

/-- Constant from search.cpp: Value(0x80), quiescence futility margin. -/
def FutilityMarginQS : Int := 128

/-- Constant from search.cpp: Value(0x8), per-move futility decrement. -/
def IncrementalFutilityMargin : Int := 8

/-- Constant from search.cpp: RazorDepth = 4 * OnePly. -/
def RazorDepth : Int := 4 * OnePly

/-- Constant from search.cpp: SelectiveDepth = 7 * OnePly. -/
def SelectiveDepth : Int := 7 * OnePly

/-- From search.cpp, ok_to_use_TT(): a transposition table score may be used
at this point of the zero-window search exactly under this condition. -/
def ok_to_use_TT (tte : TTEntry) (depth beta ply : Int) : Bool :=
  let v := value_from_tt tte.value ply
  (depth ≤ tte.depth ∨
     max (value_mate_in PLY_MAX) beta ≤ v ∨
     v < min (value_mated_in PLY_MAX) beta) ∧
  ((is_lower_bound tte.type ∧ beta ≤ v) ∨
   (is_upper_bound tte.type ∧ v < beta))

/-- Rendering of the specification sentence for ok_to_use_TT: entry deep
enough, or the ply-adjusted value already beyond the mate threshold on the
correct side of beta; and the bound type consistent with beta. -/
def ok_to_use_TT_spec_stmt (tte : TTEntry) (depth beta ply : Int) : Bool :=
  let v := value_from_tt tte.value ply
  (depth ≤ tte.depth ∨
     (value_mate_in PLY_MAX ≤ v ∧ beta ≤ v) ∨
     (v < value_mated_in PLY_MAX ∧ v < beta)) ∧
  ((is_lower_bound tte.type ∧ beta ≤ v) ∨
   (is_upper_bound tte.type ∧ v < beta))

/-- From search.cpp, refine_eval(): return the TT score instead of the given
static evaluation when the stored bound makes it more accurate. -/
def refine_eval (tte : Option TTEntry) (defaultEval ply : Int) : Int :=
  match tte with
  | none => defaultEval
  | some e =>
      let v := value_from_tt e.value ply
      if (is_lower_bound e.type ∧ defaultEval ≤ v) ∨
         (is_upper_bound e.type ∧ v < defaultEval) then v
      else defaultEval

/-- One candidate move of the zero-window move loop, bundling the values the
loop reads from the position and from recursive search calls (oracles for
one level of recursion): extension() outcome, singular-extension exclusion
search value, ok_to_prune, history gain, and the negated child-search values
as functions of the depth actually searched. -/
structure SMove where
  move : Nat
  captureOrPromotion : Bool
  isCastle : Bool
  isKiller : Bool
  extValue : Int
  dangerous : Bool
  excSearchValue : Int
  okToPrune : Bool
  gain : Int
  reducedSearch : Int → Int
  fullSearch : Int → Int

/-- One invocation of the zero-window search() of search.cpp. Position
queries, global tables and recursive calls appear as oracle fields; all
control flow and arithmetic of the function body is concrete below. -/
structure SNode where
  beta : Int
  depth : Int
  ply : Int
  allowNullmove : Bool
  excludedMove : Nat
  qsearchValue : Int
  abortSearch : Bool
  threadShouldStop : Bool
  isDraw : Bool
  tte : Option TTEntry
  isCheck : Bool
  evaluateValue : Int
  okToDoNullmove : Bool
  nullSearch : Int → Int
  verificationSearch : Int → Int
  threatDepth : Int
  prevReduction : Int
  prevConnectedMoves : Bool
  prevMoveWasNull : Bool
  hasPawnOn7th : Bool
  razorQValue : Int
  iidTTMove : Nat
  iidTTE : Option TTEntry
  futilityMargins : Int → Int
  reductionFn : Int → Nat → Int
  moves : List SMove
  activeThreads : Nat
  minimumSplitDepth : Int
  iteration : Int
  idleThreadExists : Bool
  splitAccepts : Bool

/-- The move stored in a probed entry, MOVE_NONE when there is none. -/
def ttMoveOf (tte : Option TTEntry) : Nat :=
  match tte with
  | some e => e.move
  | none => MOVE_NONE

/-- The value written to ss[ply].eval by search(): a cached static
evaluation from an EVAL-type entry when present, the evaluate() call
otherwise (read only on nodes not in check). -/
def s_ssEval (ctx : SNode) : Int :=
  match ctx.tte with
  | some e =>
      if e.type &&& VALUE_TYPE_EVAL ≠ 0 then value_from_tt e.value ctx.ply
      else ctx.evaluateValue
  | none => ctx.evaluateValue

/-- The staticValue variable of search() after refine_eval: minus infinity
in check, otherwise the eval refined by a consistent TT bound. -/
def s_staticValue (ctx : SNode) : Int :=
  if ctx.isCheck then -VALUE_INFINITE
  else refine_eval ctx.tte (s_ssEval ctx) ctx.ply

/-- The early exits of search() that precede the transposition-table lookup:
drop to quiescence below one ply, aborted search, draw or maximal ply, and
mate-distance pruning (lines 1369-1388 of search.cpp). -/
def search_pre_tt (ctx : SNode) : Option Int :=
  if ctx.depth < OnePly then some ctx.qsearchValue
  else if ctx.abortSearch ∨ ctx.threadShouldStop then some 0
  else if ctx.isDraw ∨ PLY_MAX - 1 ≤ ctx.ply then some VALUE_DRAW
  else if ctx.beta ≤ value_mated_in ctx.ply then some ctx.beta
  else if value_mate_in (ctx.ply + 1) < ctx.beta then some (ctx.beta - 1)
  else none

/-- The dynamic null-move reduction of search.cpp lines 1447-1452:
R = 3 + (depth >= 5 * OnePly ? depth / 8 : 0), plus one when the static
value exceeds beta by more than a pawn. -/
def nullMoveR (depth staticValue beta : Int) : Int :=
  let r := 3 + (if 5 * OnePly ≤ depth then Int.tdiv depth 8 else 0)
  if PawnValueMidgame < staticValue - beta then r + 1 else r

/-- The null-move search block of search.cpp lines 1436-1497, razoring
else-branch included: some value means the function returns it here, none
means control falls through to the move loop. -/
def search_null_block (ctx : SNode) (staticValue : Int) (ttMove0 : Nat) : Option Int :=
  if ctx.allowNullmove ∧ OnePly < ctx.depth ∧ ¬ ctx.isCheck ∧
     ¬ value_is_mate ctx.beta ∧ ctx.okToDoNullmove ∧
     ctx.beta - NullMoveMargin ≤ staticValue then
    let r := nullMoveR ctx.depth staticValue ctx.beta
    let nullValue := ctx.nullSearch (ctx.depth - r * OnePly)
    if ctx.beta ≤ nullValue then
      if ctx.depth < 6 * OnePly then some ctx.beta
      else if ctx.beta ≤ ctx.verificationSearch (ctx.depth - 5 * OnePly) then some ctx.beta
      else none
    else
      if ctx.depth < ctx.threatDepth ∧ ctx.prevReduction ≠ 0 ∧ ctx.prevConnectedMoves then
        some (ctx.beta - 1)
      else none
  else
    if ¬ value_is_mate ctx.beta ∧ ¬ ctx.isCheck ∧ ctx.depth < RazorDepth ∧
       staticValue < ctx.beta - (NullMoveMargin + 16 * ctx.depth) ∧
       ¬ ctx.prevMoveWasNull ∧ ttMove0 = MOVE_NONE ∧ ¬ ctx.hasPawnOn7th then
      let rbeta := ctx.beta - (NullMoveMargin + 16 * ctx.depth)
      if ctx.razorQValue < rbeta then some ctx.razorQValue else none
    else none

/-- State carried through the zero-window move loop: current best value,
number of moves searched, and the PV slot written on a fail high. -/
structure SLoopSt where
  bestValue : Int
  moveCount : Nat
  pvMove : Nat

/-- The move loop of the zero-window search (search.cpp lines 1513-1649):
exclusion of the singular-extension move, singular re-search, move-count and
value-based futility pruning, late-move reduction with re-search, and the
parallel-split guard. A split that engages leaves the sequential model
(result none). -/
def s_loop (ctx : SNode) (tteC : Option TTEntry) (ttMoveC : Nat) (ssEval : Int) :
    List SMove → SLoopSt → Option SLoopSt
  | [], st => some st
  | m :: rest, st =>
    if ¬ (st.bestValue < ctx.beta) ∨ ctx.threadShouldStop then some st
    else if m.move = ctx.excludedMove then s_loop ctx tteC ttMoveC ssEval rest st
    else
      let ext :=
        match tteC with
        | some e =>
            if 8 * OnePly ≤ ctx.depth ∧ m.move = e.move ∧
               ctx.excludedMove = MOVE_NONE ∧ m.extValue < OnePly ∧
               is_lower_bound e.type ∧ ctx.depth - 3 * OnePly ≤ e.depth then
              let ttValue := value_from_tt e.value ctx.ply
              if |ttValue| < VALUE_KNOWN_WIN then
                (if m.excSearchValue < ttValue - SingleReplyMargin then OnePly else m.extValue)
              else m.extValue
            else m.extValue
        | none => m.extValue
      let newDepth := ctx.depth - OnePly + ext
      let moveCount := st.moveCount + 1
      let fmcMargin : Int := 3 + 2 ^ Int.toNat (Int.tdiv (3 * ctx.depth) 8)
      let quiet := ¬ ctx.isCheck ∧ ¬ m.dangerous ∧ ¬ m.captureOrPromotion ∧
                   ¬ m.isCastle ∧ m.move ≠ ttMoveC
      if quiet ∧ fmcMargin ≤ (moveCount : Int) ∧ m.okToPrune ∧
         value_mated_in PLY_MAX < st.bestValue then
        s_loop ctx tteC ttMoveC ssEval rest ⟨st.bestValue, moveCount, st.pvMove⟩
      else
        let red0 := ctx.reductionFn ctx.depth moveCount
        let predictedDepth := if red0 ≠ 0 then newDepth - red0 else newDepth
        let preF := (if OnePly ≤ predictedDepth then ctx.futilityMargins predictedDepth else 0)
                    + m.gain + 45
        let futilityValueScaled := ssEval + preF - (moveCount : Int) * IncrementalFutilityMargin
        if quiet ∧ predictedDepth < SelectiveDepth ∧ futilityValueScaled < ctx.beta then
          s_loop ctx tteC ttMoveC ssEval rest
            ⟨max st.bestValue futilityValueScaled, moveCount, st.pvMove⟩
        else
          let doRed := 3 * OnePly ≤ ctx.depth ∧ ¬ m.dangerous ∧ ¬ m.captureOrPromotion ∧
                       ¬ m.isCastle ∧ ¬ m.isKiller ∧ red0 ≠ 0
          let value :=
            if doRed then
              let v1 := m.reducedSearch (newDepth - red0)
              if ctx.beta ≤ v1 then m.fullSearch newDepth else v1
            else m.fullSearch newDepth
          let st2 : SLoopSt :=
            ⟨if st.bestValue < value then value else st.bestValue, moveCount,
             if st.bestValue < value ∧ ctx.beta ≤ value then m.move else st.pvMove⟩
          if 1 < ctx.activeThreads ∧ st2.bestValue < ctx.beta ∧
             ctx.minimumSplitDepth ≤ ctx.depth ∧ ctx.iteration ≤ 99 ∧
             ctx.idleThreadExists ∧ ¬ ctx.abortSearch ∧ ¬ ctx.threadShouldStop ∧
             ctx.splitAccepts then
            none
          else s_loop ctx tteC ttMoveC ssEval rest st2

/-- The remainder of the zero-window search after the TT-cutoff branch:
static null-move pruning, null-move block, internal iterative deepening,
the move loop, and the no-legal-move epilogue. -/
def search_after_tt (ctx : SNode) : Option Int :=
  let ssEval := s_ssEval ctx
  let staticValue := s_staticValue ctx
  let ttMove0 := ttMoveOf ctx.tte
  if ¬ ctx.isCheck ∧ ctx.allowNullmove ∧ ctx.depth < RazorDepth ∧
     ctx.beta ≤ staticValue - ctx.futilityMargins ctx.depth then
    some (staticValue - ctx.futilityMargins ctx.depth)
  else
    match search_null_block ctx staticValue ttMove0 with
    | some v => some v
    | none =>
      let pair :=
        if ttMove0 = MOVE_NONE ∧ 8 * OnePly ≤ ctx.depth ∧ ¬ ctx.isCheck ∧
           ctx.beta - IIDMargin ≤ ssEval
        then (ctx.iidTTE, ctx.iidTTMove)
        else (ctx.tte, ttMove0)
      match s_loop ctx pair.1 pair.2 ssEval ctx.moves ⟨-VALUE_INFINITE, 0, MOVE_NONE⟩ with
      | none => none
      | some st =>
        if st.moveCount = 0 then
          some (if ctx.excludedMove ≠ MOVE_NONE then ctx.beta - 1
                else if ctx.isCheck then value_mated_in ctx.ply else VALUE_DRAW)
        else some st.bestValue

/-- The zero-window search() of search.cpp as a whole: early exits, TT
cutoff via ok_to_use_TT, then the rest of the node. A result of none means
the unmodelled parallel-split path engaged. -/
def search_model (ctx : SNode) : Option Int :=
  match search_pre_tt ctx with
  | some v => some v
  | none =>
    match ctx.tte with
    | some e =>
        if ok_to_use_TT e ctx.depth ctx.beta ctx.ply then
          some (value_from_tt e.value ctx.ply)
        else search_after_tt ctx
    | none => search_after_tt ctx

/-- C1: ok_to_use_TT agrees with the specification reading (depth at least
the requested one, or the ply-adjusted value beyond the mate threshold on
the correct side of beta, and a bound type consistent with beta), and once
the zero-window search reaches its TT lookup with a probed entry it returns
the ply-adjusted TT value precisely when ok_to_use_TT holds, continuing
with the rest of the node otherwise. -/
theorem ok_to_use_TT_correct (t : TTEntry) (d b p : Int) (ctx : SNode) (e : TTEntry)
    (h1 : search_pre_tt ctx = none) (h2 : ctx.tte = some e) :
    ok_to_use_TT t d b p = ok_to_use_TT_spec_stmt t d b p ∧
    search_model ctx =
      (if ok_to_use_TT e ctx.depth ctx.beta ctx.ply then
         some (value_from_tt e.value ctx.ply)
       else search_after_tt ctx) := by
  constructor
  · simp only [ok_to_use_TT, ok_to_use_TT_spec_stmt, decide_eq_decide,
      max_le_iff, lt_min_iff]
  · simp only [search_model, h1, h2]

/-- Concrete transposition-table entry with a LOWER bound type, depth 10 and
value 50. -/
def tteL : TTEntry := ⟨0, 2097152, 50, 10⟩

/-- Concrete zero-window node probing tteL at depth 4, beta 10, ply 3, with
empty move list and trivial oracles. -/
def sctxW : SNode :=
  { beta := 10, depth := 4, ply := 3, allowNullmove := true, excludedMove := 0,
    qsearchValue := 0, abortSearch := false, threadShouldStop := false,
    isDraw := false, tte := some tteL, isCheck := false, evaluateValue := 0,
    okToDoNullmove := true, nullSearch := fun _ => 0,
    verificationSearch := fun _ => 0, threatDepth := 10, prevReduction := 0,
    prevConnectedMoves := false, prevMoveWasNull := false, hasPawnOn7th := false,
    razorQValue := 0, iidTTMove := 0, iidTTE := none,
    futilityMargins := fun _ => 0, reductionFn := fun _ _ => 0, moves := [],
    activeThreads := 1, minimumSplitDepth := 8, iteration := 1,
    idleThreadExists := false, splitAccepts := false }

/-- C1 witness: the TT-cutoff equivalence evaluated on the concrete node
sctxW, both hypotheses discharged by computation. -/
theorem ok_to_use_TT_correct_witness :
    ok_to_use_TT tteL 4 10 3 = ok_to_use_TT_spec_stmt tteL 4 10 3 ∧
    search_model sctxW =
      (if ok_to_use_TT tteL sctxW.depth sctxW.beta sctxW.ply then
         some (value_from_tt tteL.value sctxW.ply)
       else search_after_tt sctxW) :=
  ok_to_use_TT_correct tteL 4 10 3 sctxW tteL (by decide) rfl

/-- C4: under the null-move preconditions the reduction is
R = 3 + (depth >= 5 OnePly ? depth/8 : 0) plus one more when the static
value exceeds beta by more than a pawn; on a fail high of the null search
the function returns beta at once below 6 OnePly, while from 6 OnePly on it
returns beta here exactly when the reduced verification search without the
null move also reaches beta. -/
theorem null_move_spec (ctx : SNode) (staticValue : Int) (ttMove0 : Nat)
    (hpre : ctx.allowNullmove ∧ OnePly < ctx.depth ∧ ¬ ctx.isCheck ∧
      ¬ value_is_mate ctx.beta ∧ ctx.okToDoNullmove ∧
      ctx.beta - NullMoveMargin ≤ staticValue) :
    nullMoveR ctx.depth staticValue ctx.beta =
      3 + (if 5 * OnePly ≤ ctx.depth then Int.tdiv ctx.depth 8 else 0) +
      (if PawnValueMidgame < staticValue - ctx.beta then 1 else 0) ∧
    (ctx.beta ≤ ctx.nullSearch (ctx.depth - nullMoveR ctx.depth staticValue ctx.beta * OnePly) →
      (ctx.depth < 6 * OnePly →
        search_null_block ctx staticValue ttMove0 = some ctx.beta) ∧
      (6 * OnePly ≤ ctx.depth →
        (search_null_block ctx staticValue ttMove0 = some ctx.beta ↔
          ctx.beta ≤ ctx.verificationSearch (ctx.depth - 5 * OnePly)))) := by
  constructor
  · unfold nullMoveR
    split <;> split <;> ring
  · intro hnv
    have hblock : search_null_block ctx staticValue ttMove0 =
        (if ctx.beta ≤ ctx.nullSearch
              (ctx.depth - nullMoveR ctx.depth staticValue ctx.beta * OnePly) then
           if ctx.depth < 6 * OnePly then some ctx.beta
           else if ctx.beta ≤ ctx.verificationSearch (ctx.depth - 5 * OnePly) then
             some ctx.beta
           else none
         else
           if ctx.depth < ctx.threatDepth ∧ ctx.prevReduction ≠ 0 ∧
              ctx.prevConnectedMoves then
             some (ctx.beta - 1)
           else none) := by
      unfold search_null_block
      rw [if_pos hpre]
    rw [hblock, if_pos hnv]
    constructor
    · intro h6
      rw [if_pos h6]
    · intro h6
      rw [if_neg (not_lt.mpr h6)]
      by_cases hv : ctx.beta ≤ ctx.verificationSearch (ctx.depth - 5 * OnePly)
      · simp [hv]
      · simp [hv]

/-- Concrete zero-window node with a failing-high null search: depth 6,
beta 10, static value 0, the null child returning 50. -/
def sctxNull : SNode :=
  { sctxW with depth := 6, nullSearch := fun _ => 50 }

/-- C4 witness: on sctxNull the null search fails high below 6 OnePly and
the block returns beta at once; every hypothesis is discharged by
computation. -/
theorem null_move_spec_witness :
    search_null_block sctxNull 0 0 = some sctxNull.beta :=
  ((null_move_spec sctxNull 0 0
      (by refine ⟨rfl, by decide, by decide, by decide, rfl, by decide⟩)).2
    (by decide)).1 (by decide)

/-- One candidate move of the PV move loop, with oracle fields for the
extension outcome, the singular exclusion search, and the (negated) child
search values as functions of the searched depth and the current alpha. -/
structure PVMove where
  move : Nat
  captureOrPromotion : Bool
  isCastle : Bool
  isKiller : Bool
  extValue : Int
  dangerous : Bool
  excSearchValue : Int
  pvSearch : Int → Int → Int
  reducedSearch : Int → Int → Int
  fullZWSearch : Int → Int → Int
  researchPV : Int → Int → Int

/-- One invocation of search_pv() of search.cpp, with oracle fields for
position queries and recursive calls. -/
structure PVNode where
  alpha : Int
  beta : Int
  depth : Int
  ply : Int
  qsearchValue : Int
  abortSearch : Bool
  threadShouldStop : Bool
  isDraw : Bool
  tte : Option TTEntry
  iidTTMove : Nat
  iidTTE : Option TTEntry
  isCheck : Bool
  moves : List PVMove
  pvReductionFn : Int → Nat → Int
  activeThreads : Nat
  minimumSplitDepth : Int
  iteration : Int
  idleThreadExists : Bool
  splitAccepts : Bool

/-- State carried through the PV move loop: the narrowing alpha, the best
value, the number of moves searched and the PV slot. -/
structure PVLoopSt where
  alpha : Int
  bestValue : Int
  moveCount : Nat
  pvMove : Nat

/-- The move loop of search_pv() (search.cpp lines 1206-1315): singular
extension of the TT move, full-window search of the first move, late-move
reduction with zero-window search and PV re-search for the others, and the
parallel-split guard (none when a split engages). -/
def pv_loop (ctx : PVNode) (tteC : Option TTEntry) (beta : Int) :
    List PVMove → PVLoopSt → Option PVLoopSt
  | [], st => some st
  | m :: rest, st =>
    if ¬ (st.alpha < beta) ∨ ctx.threadShouldStop then some st
    else
      let ext :=
        match tteC with
        | some e =>
            if 6 * OnePly ≤ ctx.depth ∧ m.move = e.move ∧ m.extValue < OnePly ∧
               is_lower_bound e.type ∧ ctx.depth - 3 * OnePly ≤ e.depth then
              let ttValue := value_from_tt e.value ctx.ply
              if |ttValue| < VALUE_KNOWN_WIN then
                (if m.excSearchValue < ttValue - SingleReplyMargin then OnePly else m.extValue)
              else m.extValue
            else m.extValue
        | none => m.extValue
      let newDepth := ctx.depth - OnePly + ext
      let moveCount := st.moveCount + 1
      let value :=
        if moveCount = 1 then m.pvSearch newDepth st.alpha
        else
          let red0 := ctx.pvReductionFn ctx.depth moveCount
          let lmr := 3 * OnePly ≤ ctx.depth ∧ ¬ m.dangerous ∧
                     ¬ m.captureOrPromotion ∧ ¬ m.isCastle ∧ ¬ m.isKiller ∧ red0 ≠ 0
          let fullPart :=
            let v2 := m.fullZWSearch newDepth st.alpha
            if st.alpha < v2 ∧ v2 < beta then m.researchPV newDepth st.alpha else v2
          if lmr then
            let v1 := m.reducedSearch (newDepth - red0) st.alpha
            if st.alpha < v1 then fullPart else v1
          else fullPart
      let st2 : PVLoopSt :=
        if st.bestValue < value then
          ⟨if st.alpha < value then value else st.alpha, value, moveCount,
           if st.alpha < value then m.move else st.pvMove⟩
        else ⟨st.alpha, st.bestValue, moveCount, st.pvMove⟩
      if 1 < ctx.activeThreads ∧ st2.bestValue < beta ∧
         ctx.minimumSplitDepth ≤ ctx.depth ∧ ctx.iteration ≤ 99 ∧
         ctx.idleThreadExists ∧ ¬ ctx.abortSearch ∧ ¬ ctx.threadShouldStop ∧
         ctx.splitAccepts then
        none
      else pv_loop ctx tteC beta rest st2

/-- The search_pv() of search.cpp as a whole: drop to quiescence, early
exits, mate-distance pruning of the window, move-ordering-only TT lookup
with internal iterative deepening, the move loop, and the mate/stalemate
epilogue; none when the unmodelled parallel split engages. -/
def search_pv_model (ctx : PVNode) : Option Int :=
  if ctx.depth < OnePly then some ctx.qsearchValue
  else if ctx.abortSearch ∨ ctx.threadShouldStop then some 0
  else if ctx.isDraw ∨ PLY_MAX - 1 ≤ ctx.ply then some VALUE_DRAW
  else
    let alpha := max (value_mated_in ctx.ply) ctx.alpha
    let beta := min (value_mate_in (ctx.ply + 1)) ctx.beta
    if beta ≤ alpha then some alpha
    else
      let ttMove0 := ttMoveOf ctx.tte
      let pair :=
        if 5 * OnePly ≤ ctx.depth ∧ ttMove0 = MOVE_NONE
        then (ctx.iidTTE, ctx.iidTTMove)
        else (ctx.tte, ttMove0)
      match pv_loop ctx pair.1 beta ctx.moves ⟨alpha, -VALUE_INFINITE, 0, MOVE_NONE⟩ with
      | none => none
      | some st =>
        if st.moveCount = 0 then
          some (if ctx.isCheck then value_mated_in ctx.ply else VALUE_DRAW)
        else some st.bestValue

/-- C3: when the move picker yields no legal move, both search functions
return the ply-adjusted mated score if the side to move is in check and
VALUE_DRAW for a stalemate, with no move searched; the hypotheses say the
node is reached normally (no early exit, no TT cutoff, no pruning return
before the loop, no excluded move). -/
theorem no_legal_moves_spec (pctx : PVNode) (sctx : SNode)
    (hp1 : ¬ pctx.depth < OnePly)
    (hp2 : ¬ (pctx.abortSearch ∨ pctx.threadShouldStop))
    (hp3 : ¬ (pctx.isDraw ∨ PLY_MAX - 1 ≤ pctx.ply))
    (hp4 : max (value_mated_in pctx.ply) pctx.alpha <
           min (value_mate_in (pctx.ply + 1)) pctx.beta)
    (hp5 : pctx.moves = [])
    (hs1 : search_pre_tt sctx = none)
    (hs2 : ∀ e, sctx.tte = some e →
      ok_to_use_TT e sctx.depth sctx.beta sctx.ply = false)
    (hs3 : ¬ (¬ sctx.isCheck ∧ sctx.allowNullmove ∧ sctx.depth < RazorDepth ∧
              sctx.beta ≤ s_staticValue sctx - sctx.futilityMargins sctx.depth))
    (hs4 : search_null_block sctx (s_staticValue sctx) (ttMoveOf sctx.tte) = none)
    (hs5 : sctx.moves = [])
    (hs6 : sctx.excludedMove = MOVE_NONE) :
    search_pv_model pctx =
      some (if pctx.isCheck then value_mated_in pctx.ply else VALUE_DRAW) ∧
    search_model sctx =
      some (if sctx.isCheck then value_mated_in sctx.ply else VALUE_DRAW) := by
  constructor
  · rw [search_pv_model, if_neg hp1, if_neg hp2, if_neg hp3]
    rw [if_neg (not_le.mpr hp4)]
    rw [hp5]
    simp [pv_loop]
  · have hafter : search_after_tt sctx =
        some (if sctx.isCheck then value_mated_in sctx.ply else VALUE_DRAW) := by
      rw [search_after_tt]
      rw [if_neg hs3]
      rw [hs4, hs5]
      simp [s_loop, hs6]
    have htt : search_model sctx = search_after_tt sctx := by
      rw [search_model, hs1]
      cases htte : sctx.tte with
      | none => rfl
      | some e => exact if_neg (by simp [hs2 e htte])
    rw [htt, hafter]

/-- Concrete PV node in check at depth 4, ply 3, with no legal moves. -/
def pctxMate : PVNode :=
  { alpha := -100, beta := 100, depth := 4, ply := 3, qsearchValue := 0,
    abortSearch := false, threadShouldStop := false, isDraw := false,
    tte := none, iidTTMove := 0, iidTTE := none, isCheck := true, moves := [],
    pvReductionFn := fun _ _ => 0, activeThreads := 1, minimumSplitDepth := 8,
    iteration := 1, idleThreadExists := false, splitAccepts := false }

/-- Concrete zero-window node in check at depth 4, ply 3, with no probed
entry and no legal moves. -/
def sctxMate : SNode :=
  { sctxW with tte := none, isCheck := true }

/-- C3 witness: the no-legal-move theorem evaluated on the two concrete
nodes, every hypothesis discharged by computation. -/
theorem no_legal_moves_spec_witness :
    search_pv_model pctxMate =
      some (if pctxMate.isCheck then value_mated_in pctxMate.ply else VALUE_DRAW) ∧
    search_model sctxMate =
      some (if sctxMate.isCheck then value_mated_in sctxMate.ply else VALUE_DRAW) :=
  no_legal_moves_spec pctxMate sctxMate (by decide) (by decide) (by decide)
    (by decide) rfl (by decide)
    (by intro e h; rw [show sctxMate.tte = none from rfl] at h; exact Option.noConfusion h)
    (by decide) (by decide) rfl (by decide)

/-- One candidate move of the quiescence loop with its position-query
oracles and the negated recursive qsearch value as a function of the
current alpha. -/
structure QMove where
  move : Nat
  moveIsCheck : Bool
  isPromotion : Bool
  isPassedPawnPush : Bool
  isCapture : Bool
  fromIsKing : Bool
  isEP : Bool
  endgameValueOfCaptured : Int
  seeSignNeg : Bool
  childValue : Int → Int

/-- One invocation of qsearch() of search.cpp with oracle fields for
position queries and the recursive calls. -/
structure QNode where
  alpha : Int
  beta : Int
  depth : Int
  ply : Int
  abortSearch : Bool
  threadShouldStop : Bool
  isDraw : Bool
  tte : Option TTEntry
  isCheck : Bool
  evaluateValue : Int
  eiFutilityMarginSTM : Int
  enoughMaterial : Bool
  canCastle : Bool
  moves : List QMove

/-- From qsearch() line 1702: a node is a PV node when its window is wider
than one. -/
def q_pvNode (ctx : QNode) : Bool := ctx.beta - ctx.alpha ≠ 1

/-- The TT-cutoff condition of qsearch() line 1721: never at a PV node. -/
def q_tt_cutoff (ctx : QNode) : Bool :=
  match ctx.tte with
  | some e => ¬ q_pvNode ctx ∧ ok_to_use_TT e ctx.depth ctx.beta ctx.ply
  | none => false

/-- The staticValue of qsearch() lines 1731-1737: minus infinity in check,
a cached evaluation from an EVAL-type entry when present, the evaluate()
call otherwise. -/
def q_staticValue (ctx : QNode) : Int :=
  if ctx.isCheck then -VALUE_INFINITE
  else
    match ctx.tte with
    | some e =>
        if e.type &&& VALUE_TYPE_EVAL ≠ 0 then value_from_tt e.value ctx.ply
        else ctx.evaluateValue
    | none => ctx.evaluateValue

/-- State carried through the quiescence move loop. -/
structure QLoopSt where
  alpha : Int
  bestValue : Int
  moveCount : Nat
  pvMove : Nat

/-- The quiescence move loop (search.cpp lines 1775-1838): capture futility
pruning, pruning of blocking evasions and of negative-SEE captures, then
the recursive search with window updates. -/
def q_loop (ctx : QNode) (ttMove0 : Nat) (futilityBase : Int) :
    List QMove → QLoopSt → QLoopSt
  | [], st => st
  | m :: rest, st =>
    if ¬ (st.alpha < ctx.beta) then st
    else
      let moveCount := st.moveCount + 1
      let futilityValue := futilityBase + m.endgameValueOfCaptured +
                           (if m.isEP then PawnValueEndgame else 0)
      if ctx.enoughMaterial ∧ ¬ ctx.isCheck ∧ ¬ q_pvNode ctx ∧ ¬ m.moveIsCheck ∧
         m.move ≠ ttMove0 ∧ ¬ m.isPromotion ∧ ¬ m.isPassedPawnPush ∧
         futilityValue < st.alpha then
        q_loop ctx ttMove0 futilityBase rest
          ⟨st.alpha, max st.bestValue futilityValue, moveCount, st.pvMove⟩
      else
        let evasionPrunable := ctx.isCheck ∧ st.bestValue ≠ -VALUE_INFINITE ∧
                               ¬ m.isCapture ∧ ¬ m.fromIsKing ∧ ¬ ctx.canCastle
        if (¬ ctx.isCheck ∨ evasionPrunable) ∧ m.move ≠ ttMove0 ∧
           ¬ m.isPromotion ∧ m.seeSignNeg then
          q_loop ctx ttMove0 futilityBase rest
            ⟨st.alpha, st.bestValue, moveCount, st.pvMove⟩
        else
          let value := m.childValue st.alpha
          let st2 : QLoopSt :=
            if st.bestValue < value then
              ⟨if st.alpha < value then value else st.alpha, value, moveCount,
               if st.alpha < value then m.move else st.pvMove⟩
            else ⟨st.alpha, st.bestValue, moveCount, st.pvMove⟩
          q_loop ctx ttMove0 futilityBase rest st2

/-- The qsearch() of search.cpp as a whole: early exits, zero-window-only
TT cutoff, stand pat on the static value, the move loop, and the mate
epilogue. -/
def qsearch_model (ctx : QNode) : Int :=
  if ctx.abortSearch ∨ ctx.threadShouldStop then 0
  else if ctx.isDraw ∨ PLY_MAX - 1 ≤ ctx.ply then VALUE_DRAW
  else
    let ttMove0 := ttMoveOf ctx.tte
    if q_tt_cutoff ctx then
      match ctx.tte with
      | some e => value_from_tt e.value ctx.ply
      | none => 0
    else
      let staticValue := q_staticValue ctx
      if ctx.beta ≤ staticValue then staticValue
      else
        let alpha0 := if ctx.alpha < staticValue then staticValue else ctx.alpha
        let futilityBase := staticValue + FutilityMarginQS + ctx.eiFutilityMarginSTM
        let st := q_loop ctx ttMove0 futilityBase ctx.moves
                    ⟨alpha0, staticValue, 0, MOVE_NONE⟩
        if st.moveCount = 0 ∧ ctx.isCheck then value_mated_in ctx.ply
        else st.bestValue

/-- Concrete EVAL-cache transposition entry (type EV_LO) storing value 120. -/
def tteEv : TTEntry := ⟨0, 6291456, 120, 0⟩

/-- Concrete PV quiescence node (window wider than one) probing tteEv, not
in check, whose evaluate() oracle would return 37. -/
def qctxPV : QNode :=
  { alpha := 0, beta := 100, depth := 0, ply := 3, abortSearch := false,
    threadShouldStop := false, isDraw := false, tte := some tteEv,
    isCheck := false, evaluateValue := 37, eiFutilityMarginSTM := 0,
    enoughMaterial := true, canCastle := false, moves := [] }

/-- C2 counterexample: at this PV quiescence node the value stored in the
probed (EVAL-cache) entry is returned as the search value through the
stand-pat path: the node returns 120, the ply-adjusted stored TT value,
not the 37 the evaluation oracle would give. -/
theorem qsearch_pv_tt_counterexample :
    q_pvNode qctxPV = true ∧
    qsearch_model qctxPV = value_from_tt tteEv.value qctxPV.ply ∧
    qsearch_model qctxPV ≠ qctxPV.evaluateValue := by
  refine ⟨by decide, by decide, by decide⟩

/-- C2 amended: the TT-cutoff branch of qsearch fires only at zero-window
nodes; at a PV node an entry that is not an EVAL-cache entry never feeds
the static value, which then is the evaluation itself; and whenever the
stand pat fires the returned value is exactly that static value (so an
EVAL-cache entry, and only such an entry, can surface a stored TT value at
a PV node). -/
theorem qsearch_pv_tt_spec (ctx : QNode) :
    (q_tt_cutoff ctx = true → ctx.beta - ctx.alpha = 1) ∧
    (q_pvNode ctx = true → ctx.isCheck = false →
      (∀ e, ctx.tte = some e → e.type &&& VALUE_TYPE_EVAL = 0) →
      q_staticValue ctx = ctx.evaluateValue) ∧
    (¬ (ctx.abortSearch ∨ ctx.threadShouldStop) → ¬ (ctx.isDraw ∨ PLY_MAX - 1 ≤ ctx.ply) →
      q_tt_cutoff ctx = false → ctx.beta ≤ q_staticValue ctx →
      qsearch_model ctx = q_staticValue ctx) := by
  refine ⟨?_, ?_, ?_⟩
  · intro h
    unfold q_tt_cutoff at h
    cases htte : ctx.tte with
    | none => rw [htte] at h; exact absurd h (by simp)
    | some e =>
        rw [htte] at h
        have hnp : ¬ q_pvNode ctx := by
          by_cases hq : q_pvNode ctx
          · simp [hq] at h
          · exact hq
        unfold q_pvNode at hnp
        simpa using hnp
  · intro hpv hic hne
    unfold q_staticValue
    rw [hic]
    cases htte : ctx.tte with
    | none => simp
    | some e =>
        simp only [Bool.false_eq_true, if_false]
        rw [if_neg (by simp [hne e htte])]
  · intro h1 h2 h3 h4
    unfold qsearch_model
    rw [if_neg h1, if_neg h2, h3]
    simp only [Bool.false_eq_true, if_false]
    rw [if_pos h4]

/-- Concrete PV quiescence node probing a LOWER-bound (non EVAL) entry. -/
def qctxB : QNode := { qctxPV with tte := some tteL }

/-- Concrete quiescence node with no entry and a stand-pat evaluation above
beta. -/
def qctxS : QNode := { qctxPV with tte := none, evaluateValue := 500 }

/-- Concrete zero-window quiescence node probing an UPPER-bound entry whose
value is below beta, so the TT cutoff fires. -/
def tteU : TTEntry := ⟨0, 1048576, 50, 10⟩

/-- Concrete zero-window quiescence node for the cutoff part. -/
def qctxZW : QNode := { qctxPV with alpha := 99, tte := some tteU }

/-- C2 witness: the three parts of the amended theorem applied at concrete
nodes with every hypothesis discharged by computation. -/
theorem qsearch_pv_tt_spec_witness :
    qctxZW.beta - qctxZW.alpha = 1 ∧
    q_staticValue qctxB = qctxB.evaluateValue ∧
    qsearch_model qctxS = q_staticValue qctxS :=
  ⟨(qsearch_pv_tt_spec qctxZW).1 (by decide),
   (qsearch_pv_tt_spec qctxB).2.1 (by decide) (by decide)
     (by intro e h; injection h with h2; rw [← h2]; decide),
   (qsearch_pv_tt_spec qctxS).2.2 (by decide) (by decide) (by decide) (by decide)⟩

/-- Square validity from bitboard.cpp geometry: squares are 0..63. -/
def square_is_ok (s : Int) : Bool := 0 ≤ s ∧ s < 64

/-- File of a square (low three bits). -/
def square_file (s : Int) : Int := Int.emod s 8

/-- Rank of a square (high three bits). -/
def square_rank (s : Int) : Int := Int.ediv s 8

/-- Chebyshev distance between squares, as used by sliding_attacks to stop
at the board edge. -/
def square_distance (s1 s2 : Int) : Int :=
  max |square_file s1 - square_file s2| |square_rank s1 - square_rank s2|

/-- One ray of sliding_attacks() of bitboard.cpp: walk in direction delta
while on the board, adjacent to the previous square and not excluded; each
square is added, and the walk stops after an occupied square. Rays have at
most 7 squares, so fuel 8 is exact. -/
def ray_attacks (occupied excluded : Nat) (delta : Int) : Nat → Int → Nat
  | 0, _ => 0
  | fuel + 1, s =>
    if square_is_ok s ∧ square_distance s (s - delta) = 1 ∧
       ¬ excluded.testBit s.toNat then
      if occupied.testBit s.toNat then 2 ^ s.toNat
      else 2 ^ s.toNat ||| ray_attacks occupied excluded delta fuel (s + delta)
    else 0

/-- From bitboard.cpp, sliding_attacks(): the union of the four rays. -/
def sliding_attacks (sq : Int) (occupied : Nat) (deltas : List Int)
    (excluded : Nat) : Nat :=
  deltas.foldl (fun acc d => acc ||| ray_attacks occupied excluded d 8 (sq + d)) 0

/-- The four rook directions of bitboard.cpp (RDeltas). -/
def rookDeltas : List Int := [8, -8, 1, -1]

/-- From bitboard.cpp, submask(): the submask of mask selected by the bits
of key, the i-th set bit of mask being governed by bit i of key. -/
def submask (mask key : Nat) : Nat :=
  ((List.range 64).foldl
    (fun st s =>
       if mask.testBit s then
         (st.1 + 1, if key.testBit st.1 then st.2 ||| 2 ^ s else st.2)
       else st)
    ((0, 0) : Nat × Nat)).2

/-- BitCount8Bit of bitboard.cpp: population count of a byte. -/
def bitCount8 (b : Nat) : Nat :=
  ((List.range 8).filter (fun i => b.testBit i)).length

/-- The 64-bit magic index of bitboard.cpp: (occupancy * magic) >> shift,
with the multiplication wrapping at 64 bits. -/
def magic_index (occ magic shift : Nat) : Nat :=
  ((occ * magic) % 2 ^ 64) >>> shift

/-- From bitboard.cpp, pick_magic() (64-bit variant): draw three random
values, AND them, and accept the candidate exactly when the top byte of
mask * magic has at least six set bits; the random stream is modelled as
the list of draws. -/
def pick_magic (mask : Nat) : List (Nat × Nat × Nat) → Option Nat
  | [] => none
  | (r1, r2, r3) :: rest =>
      let magic := r1 &&& r2 &&& r3
      if 6 ≤ bitCount8 (((mask * magic) % 2 ^ 64) >>> 56) then some magic
      else pick_magic mask rest

/-- The candidate attack table of do_magics(), modelled as an association
list over indices: absent indices are the zero-initialized empty slots. -/
def tableGet (acc : List (Nat × Nat)) (i : Nat) : Nat :=
  match acc.find? (fun kv => kv.1 = i) with
  | some kv => kv.2
  | none => 0

/-- The verification loop body of do_magics() (bitboard.cpp lines 350-360):
for each key in order, an empty slot receives the pre-computed attack set,
a filled slot must already hold exactly that attack set, otherwise the
candidate magic is rejected (none). -/
def magic_fill (occupancy proofs : Nat → Nat) (magic shift : Nat) :
    List Nat → List (Nat × Nat) → Option (List (Nat × Nat))
  | [], acc => some acc
  | key :: rest, acc =>
      let idx := magic_index (occupancy key) magic shift
      if tableGet acc idx = 0 then
        magic_fill occupancy proofs magic shift rest ((idx, proofs key) :: acc)
      else if tableGet acc idx = proofs key then
        magic_fill occupancy proofs magic shift rest acc
      else none

/-- The acceptance test of do_magics() for one square: run the verification
loop over all submask keys starting from the empty table. -/
def magic_check (occupancy proofs : Nat → Nat) (magic shift maxKey : Nat) :
    Option (List (Nat × Nat)) :=
  magic_fill occupancy proofs magic shift (List.range maxKey) []

/-- Lookup through a freshly written slot: the head entry answers its own
index, any other index falls through. -/
theorem tableGet_cons (idx v i : Nat) (acc : List (Nat × Nat)) :
    tableGet ((idx, v) :: acc) i = if idx = i then v else tableGet acc i := by
  unfold tableGet
  by_cases h : idx = i
  · simp [List.find?, h]
  · simp [List.find?, h]

/-- Invariant of the verification loop: a successful run never changes a
nonempty slot, and afterwards every processed key finds its own attack set
in its slot (filled slots are nonzero because every attack set is). -/
theorem magic_fill_invariant (occupancy proofs : Nat → Nat) (magic shift : Nat) :
    ∀ (keys : List Nat) (acc acc2 : List (Nat × Nat)),
      magic_fill occupancy proofs magic shift keys acc = some acc2 →
      (∀ k ∈ keys, proofs k ≠ 0) →
      (∀ i, tableGet acc i ≠ 0 → tableGet acc2 i = tableGet acc i) ∧
      (∀ k ∈ keys, tableGet acc2 (magic_index (occupancy k) magic shift) = proofs k) := by
  intro keys
  induction keys with
  | nil =>
      intro acc acc2 h hz
      unfold magic_fill at h
      injection h with h2
      subst h2
      exact ⟨fun i _ => rfl, fun k hk => absurd hk (List.not_mem_nil k)⟩
  | cons key rest ih =>
      intro acc acc2 h hz
      have hzr : ∀ k ∈ rest, proofs k ≠ 0 :=
        fun k hk => hz k (List.mem_cons_of_mem key hk)
      unfold magic_fill at h
      by_cases hcur : tableGet acc (magic_index (occupancy key) magic shift) = 0
      · rw [if_pos hcur] at h
        obtain ⟨pres, hits⟩ := ih _ _ h hzr
        have hslot : tableGet ((magic_index (occupancy key) magic shift, proofs key) :: acc)
            (magic_index (occupancy key) magic shift) = proofs key := by
          rw [tableGet_cons, if_pos rfl]
        constructor
        · intro i hi
          have hne : magic_index (occupancy key) magic shift ≠ i := by
            intro hc
            exact hi (hc ▸ hcur)
          have hcons : tableGet ((magic_index (occupancy key) magic shift, proofs key) :: acc) i
              = tableGet acc i := by
            rw [tableGet_cons, if_neg hne]
          rw [← hcons]
          exact pres i (by rw [hcons]; exact hi)
        · intro k hk
          rcases List.mem_cons.mp hk with hk1 | hk2
          · subst hk1
            rw [pres _ (by rw [hslot]; exact hz k (List.mem_cons_self k rest)), hslot]
          · exact hits k hk2
      · rw [if_neg hcur] at h
        by_cases heq : tableGet acc (magic_index (occupancy key) magic shift) = proofs key
        · rw [if_pos heq] at h
          obtain ⟨pres, hits⟩ := ih _ _ h hzr
          constructor
          · exact pres
          · intro k hk
            rcases List.mem_cons.mp hk with hk1 | hk2
            · subst hk1
              rw [pres _ hcur, heq]
            · exact hits k hk2
        · rw [if_neg heq] at h
          exact absurd h (by simp)

/-- C8: the 64-bit rejection sampler only returns magics whose top byte of
mask * magic has at least six set bits, and when the per-square acceptance
loop over all submask occupancies succeeds (as it has when do_magics picks
a magic for a square), the filled table answers every submask occupancy
with the true sliding attack set, so every index collision is between
occupancies with equal attack sets. -/
theorem magic_bitboard_spec :
    (∀ (mask : Nat) (draws : List (Nat × Nat × Nat)) (m : Nat),
       pick_magic mask draws = some m →
       6 ≤ bitCount8 (((mask * m) % 2 ^ 64) >>> 56)) ∧
    (∀ (sq : Int) (deltas : List Int) (mask magic shift maxKey : Nat)
       (acc : List (Nat × Nat)),
       magic_check (fun k => submask mask k)
         (fun k => sliding_attacks sq (submask mask k) deltas 0) magic shift maxKey
         = some acc →
       (∀ k, k < maxKey → sliding_attacks sq (submask mask k) deltas 0 ≠ 0) →
       (∀ k, k < maxKey →
          tableGet acc (magic_index (submask mask k) magic shift) =
            sliding_attacks sq (submask mask k) deltas 0) ∧
       (∀ k j, k < maxKey → j < maxKey →
          magic_index (submask mask k) magic shift =
            magic_index (submask mask j) magic shift →
          sliding_attacks sq (submask mask k) deltas 0 =
            sliding_attacks sq (submask mask j) deltas 0)) := by
  constructor
  · intro mask draws
    induction draws with
    | nil => intro m h; exact absurd h (by simp [pick_magic])
    | cons d rest ih =>
        intro m h
        obtain ⟨r1, r2, r3⟩ := d
        unfold pick_magic at h
        by_cases hc : 6 ≤ bitCount8 (((mask * (r1 &&& r2 &&& r3)) % 2 ^ 64) >>> 56)
        · rw [if_pos hc] at h
          injection h with h2
          subst h2
          exact hc
        · rw [if_neg hc] at h
          exact ih m h
  · intro sq deltas mask magic shift maxKey acc h hz
    have hz2 : ∀ k ∈ List.range maxKey,
        sliding_attacks sq (submask mask k) deltas 0 ≠ 0 :=
      fun k hk => hz k (List.mem_range.mp hk)
    obtain ⟨_, hits⟩ := magic_fill_invariant
      (fun k => submask mask k)
      (fun k => sliding_attacks sq (submask mask k) deltas 0)
      magic shift (List.range maxKey) [] acc h hz2
    have hmain : ∀ k, k < maxKey →
        tableGet acc (magic_index (submask mask k) magic shift) =
          sliding_attacks sq (submask mask k) deltas 0 :=
      fun k hk => hits k (List.mem_range.mpr hk)
    refine ⟨hmain, ?_⟩
    intro k j hk hj hidx
    rw [← hmain k hk, ← hmain j hj, hidx]

/-- Concrete attack table produced by the acceptance loop for square a1,
mask consisting of the single square a2, magic 2^55 and shift 63. -/
def accW : List (Nat × Nat) := [(1, 510), (0, 72340172838076926)]

/-- C8 witness: the sampler acceptance and the table property evaluated on
concrete data (square a1, rook rays, mask a2, magic 2^55, shift 63, both
submask occupancies), every hypothesis discharged by computation. -/
theorem magic_bitboard_spec_witness :
    6 ≤ bitCount8 (((252 * (2 ^ 56 &&& 2 ^ 56 &&& 2 ^ 56)) % 2 ^ 64) >>> 56) ∧
    (∀ k, k < 2 →
       tableGet accW (magic_index (submask 256 k) (2 ^ 55) 63) =
         sliding_attacks 0 (submask 256 k) rookDeltas 0) ∧
    (∀ k j, k < 2 → j < 2 →
       magic_index (submask 256 k) (2 ^ 55) 63 =
         magic_index (submask 256 j) (2 ^ 55) 63 →
       sliding_attacks 0 (submask 256 k) rookDeltas 0 =
         sliding_attacks 0 (submask 256 j) rookDeltas 0) :=
  ⟨magic_bitboard_spec.1 252 [(2 ^ 56, 2 ^ 56, 2 ^ 56)] (2 ^ 56 &&& 2 ^ 56 &&& 2 ^ 56)
     (by decide),
   magic_bitboard_spec.2 0 rookDeltas 256 (2 ^ 55) 63 2 accW (by decide) (by decide)⟩
